import Mathlib

/-!
Shallow embedding of the VelocityMesh quantum-inspired workflow engine
(`ai-engine/quantum_workflow_engine.py`).  Python floats are modelled as
rationals (`ℚ`); Python dicts with a fixed key set become structures; dicts
used as keyed registries become association lists; `dict.get(k, d)` becomes
`Option.getD`; exceptions become `Except`.  `time.time()` is modelled as an
explicit clock argument.
-/

namespace VelocityMesh

/-- `needle` occurs as a contiguous run starting at some suffix of `hay`. -/
def pyInChars (needle : List Char) : List Char → Bool
  | [] => needle.isEmpty
  | c :: cs => needle.isPrefixOf (c :: cs) || pyInChars needle cs

/-- Python's substring operator `needle in hay` on strings. -/
def pyIn (needle hay : String) : Bool :=
  pyInChars needle.data hay.data

/-- The `trade_offs` dict of a variant: fixed keys speed / reliability /
resource_usage (`_generate_implementation_variants`). -/
structure TradeOffs where
  speed : ℚ
  reliability : ℚ
  resource_usage : ℚ
deriving Repr, DecidableEq

/-- An implementation variant (`_generate_implementation_variants` items). -/
structure Variant where
  type : String
  characteristics : List String
  trade_offs : TradeOffs
deriving Repr, DecidableEq

/-- The part of the intent record the selection pipeline reads:
`intent["primary_goal"]` (`ConsciousnessEngine.understand_intent`). -/
structure Intent where
  primary_goal : String
deriving Repr, DecidableEq

/-- `QuantumWorkflowEngine._generate_implementation_variants`: the fixed
four-archetype catalog (the `intent` argument is unused by the code). -/
def generate_implementation_variants : List Variant :=
  [ { type := "speed_optimized",
      characteristics := ["parallel_execution", "minimal_validation", "cached_results"],
      trade_offs := { speed := 95/100, reliability := 8/10, resource_usage := 9/10 } },
    { type := "reliability_optimized",
      characteristics := ["comprehensive_validation", "redundant_execution", "extensive_logging"],
      trade_offs := { speed := 7/10, reliability := 98/100, resource_usage := 6/10 } },
    { type := "learning_optimized",
      characteristics := ["experimental_paths", "a_b_testing", "continuous_optimization"],
      trade_offs := { speed := 8/10, reliability := 85/100, resource_usage := 7/10 } },
    { type := "ux_optimized",
      characteristics := ["intuitive_feedback", "proactive_communication", "graceful_degradation"],
      trade_offs := { speed := 85/100, reliability := 9/10, resource_usage := 8/10 } } ]

/-- The weight vector produced by `_analyze_execution_context`. -/
structure Weights where
  time_pressure : ℚ
  resource_availability : ℚ
  user_expertise : ℚ
  system_load : ℚ
  error_tolerance : ℚ
deriving Repr, DecidableEq

/-- The execution context supplied by the caller at collapse time.  Each
field is `none` when the corresponding key is absent from the Python dict. -/
structure ExecContext where
  urgency : Option ℚ := none
  resources : Option ℚ := none
  user_skill_level : Option ℚ := none
  current_load : Option ℚ := none
  error_tolerance : Option ℚ := none
deriving Repr, DecidableEq

/-- `QuantumWorkflowEngine._analyze_execution_context`: a total mapping via
`context.get(key, default)`; it performs no range validation and raises no
error. -/
def analyze_execution_context (c : ExecContext) : Weights :=
  { time_pressure := c.urgency.getD (1/2),
    resource_availability := c.resources.getD (8/10),
    user_expertise := c.user_skill_level.getD (6/10),
    system_load := c.current_load.getD (3/10),
    error_tolerance := c.error_tolerance.getD (7/10) }

/-- The base (pre-bonus) part of `_calculate_variant_score`. -/
def variant_base_score (v : Variant) (w : Weights) : ℚ :=
  (v.trade_offs.speed * w.time_pressure +
   v.trade_offs.reliability * (1 - w.error_tolerance) +
   v.trade_offs.resource_usage * w.resource_availability) / 3

/-- `QuantumWorkflowEngine._calculate_variant_score`.  Note the bonus test is
Python's `"ux_optimized" in variant["type"]`, a substring containment test on
the type name, not an equality test. -/
def calculate_variant_score (v : Variant) (w : Weights) (intent : Intent) : ℚ :=
  let score := variant_base_score v w
  if intent.primary_goal = "customer_communication_optimization" ∧
      pyIn "ux_optimized" v.type = true then
    score + 1/10
  else
    score

/-- `QuantumWorkflowEngine._select_optimal_variant`.  The code builds
`(score, variant)` pairs, stable-sorts them by score in descending order and
returns the first element; the head of a stable descending sort is the
earliest element attaining the maximal score, which is what this fold
computes.  An empty variant list makes the Python code raise `IndexError` on
`variant_scores[0]`; that is the `none` branch here. -/
def select_optimal_variant (variants : List Variant) (w : Weights) (intent : Intent) :
    Option Variant :=
  match variants with
  | [] => none
  | v :: vs =>
    some (vs.foldl
      (fun best cur =>
        if calculate_variant_score best w intent < calculate_variant_score cur w intent then
          cur
        else
          best) v)

/-- One step of the execution plan (`_generate_execution_plan`), with the
optional keys the variant-characteristic overlays may add. -/
structure Step where
  step : String
  type : String
  consciousness_required : Bool
  parallelization : Option String := none
  thread_count : Option Nat := none
  validation_depth : Option String := none
  validation_layers : Option (List String) := none
  logging_level : Option String := none
  monitoring : Option String := none
deriving Repr, DecidableEq

/-- The 5-step base skeleton in `_generate_execution_plan`. -/
def base_steps : List Step :=
  [ { step := "initialize", type := "setup", consciousness_required := false },
    { step := "validate_inputs", type := "validation", consciousness_required := true },
    { step := "execute_core_logic", type := "execution", consciousness_required := true },
    { step := "handle_results", type := "processing", consciousness_required := true },
    { step := "notify_completion", type := "communication", consciousness_required := false } ]

/-- `QuantumWorkflowEngine._generate_execution_plan`: the per-step overlay
loop body.  The `intent` argument is unused by the code. -/
def enhance_step (v : Variant) (s : Step) : Step :=
  let s₁ :=
    if "parallel_execution" ∈ v.characteristics ∧ s.type = "execution" then
      { s with parallelization := some "enabled", thread_count := some 4 }
    else s
  let s₂ :=
    if "comprehensive_validation" ∈ v.characteristics ∧ s₁.type = "validation" then
      { s₁ with validation_depth := some "comprehensive",
                validation_layers := some ["syntax", "semantic", "business_logic", "security"] }
    else s₁
  if "extensive_logging" ∈ v.characteristics then
    { s₂ with logging_level := some "detailed", monitoring := some "real_time" }
  else s₂

/-- `QuantumWorkflowEngine._generate_execution_plan`. -/
def generate_execution_plan (v : Variant) (_intent : Intent) : List Step :=
  base_steps.map (enhance_step v)

/-- The `WorkflowState` enum. -/
inductive WorkflowState where
  | SUPERPOSITION
  | COLLAPSED
  | ENTANGLED
  | EVOLVING
  | CONSCIOUS
deriving Repr, DecidableEq

/-- The fields of a stored workflow dict that the collapse path reads or
writes (`create_quantum_workflow` / `collapse_workflow`). -/
structure Workflow where
  id : String
  intent : Intent
  state : WorkflowState
  possible_implementations : List Variant
  consciousness_level : ℚ
  creation_timestamp : ℚ
  selected_variant : Option Variant := none
  execution_plan : Option (List Step) := none
  execution_context : Option ExecContext := none
  collapse_timestamp : Option ℚ := none
deriving Repr, DecidableEq

/-- Replace the binding of `k` (or append it) in an association list; models
`d[k] = v` on a Python dict. -/
def updateAssoc {α : Type} : List (String × α) → String → α → List (String × α)
  | [], k, v => [(k, v)]
  | (k', v') :: rest, k, v =>
    if k' = k then (k, v) :: rest else (k', v') :: updateAssoc rest k v

/-- The engine's `active_workflows` registry. -/
def WorkflowStore : Type := List (String × Workflow)

/-- Errors the collapse path can raise: `ValueError` for an unknown id, and
`IndexError` from `variant_scores[0]` when the variant list is empty. -/
inductive EngineError where
  | workflowNotFound (id : String)
  | indexError
deriving Repr, DecidableEq

/-- `QuantumWorkflowEngine.collapse_workflow` (with
`_select_optimal_variant` inlined as a call).  `now` models `time.time()`.
The method checks only that the id exists; it never inspects the workflow's
current lifecycle state, and `self.active_workflows[workflow_id].update(...)`
overwrites the stored state, selected variant, plan and collapse timestamp
unconditionally. -/
def collapse_workflow (store : List (String × Workflow)) (workflow_id : String)
    (ctx : ExecContext) (now : ℚ) :
    Except EngineError (List (String × Workflow) × Workflow) :=
  match store.lookup workflow_id with
  | none => .error (.workflowNotFound workflow_id)
  | some wf =>
    match select_optimal_variant wf.possible_implementations
        (analyze_execution_context ctx) wf.intent with
    | none => .error .indexError
    | some v =>
      let updated := { wf with
        state := WorkflowState.COLLAPSED,
        selected_variant := some v,
        execution_plan := some (generate_execution_plan v wf.intent),
        execution_context := some ctx,
        collapse_timestamp := some now }
      .ok (updateAssoc store workflow_id updated, updated)

/-- One entry of `evolution_history[workflow_id]` as built by
`track_execution`.  `success_rate` stores the boolean reported as `success`
(Python averages booleans as 0/1 later). -/
structure EvolutionData where
  timestamp : ℚ
  execution_time : ℚ
  success_rate : Bool
  user_satisfaction : ℚ
  resource_efficiency : ℚ
  error_count : ℚ
  improvement_suggestions : List String
deriving Repr, DecidableEq

/-- The `execution_result` dict passed to `track_execution`; `none` models
an absent key. -/
structure ExecutionResult where
  duration : Option ℚ := none
  success : Option Bool := none
  user_satisfaction : Option ℚ := none
  resource_usage : Option ℚ := none
  errors : Option ℚ := none
  ai_suggestions : Option (List String) := none
deriving Repr, DecidableEq

/-- The `evolution_data` record `track_execution` builds, default values
included. -/
def make_evolution_data (r : ExecutionResult) (now : ℚ) : EvolutionData :=
  { timestamp := now,
    execution_time := r.duration.getD 0,
    success_rate := r.success.getD true,
    user_satisfaction := r.user_satisfaction.getD (8/10),
    resource_efficiency := r.resource_usage.getD (7/10),
    error_count := r.errors.getD 0,
    improvement_suggestions := r.ai_suggestions.getD [] }

/-- Python `history[-10:]`: the most recent `min(10, length)` entries. -/
def lastTen {α : Type} (l : List α) : List α :=
  l.drop (l.length - 10)

/-- Numeric value of a stored `success_rate` boolean under Python
arithmetic (`True` sums as 1). -/
def boolVal (b : Bool) : ℚ := if b then 1 else 0

/-- The fitness value `_calculate_fitness_score` computes on a non-empty
history: `avg_satisfaction * 0.4 + avg_efficiency * 0.3 + success_rate * 0.3`
over the last ten entries. -/
def fitness_val (history : List EvolutionData) : ℚ :=
  let recent := lastTen history
  let n : ℚ := (recent.length : ℚ)
  let avg_satisfaction := (recent.map (fun e => e.user_satisfaction)).sum / n
  let avg_efficiency := (recent.map (fun e => e.resource_efficiency)).sum / n
  let success_rate := (recent.map (fun e => boolVal e.success_rate)).sum / n
  avg_satisfaction * (4/10) + avg_efficiency * (3/10) + success_rate * (3/10)

/-- `WorkflowEvolutionTracker._calculate_fitness_score` as a function of the
history list; `none` models the early return on an empty history (no score
stored). -/
def calculate_fitness_score (history : List EvolutionData) : Option ℚ :=
  match history with
  | [] => none
  | _ => some (fitness_val history)

/-- The moderate remediation tags added when fitness < 0.7
(`_suggest_mutations`). -/
def moderate_mutations : List String :=
  [ "optimize_execution_order", "add_parallel_processing", "implement_caching",
    "reduce_validation_overhead", "improve_error_handling" ]

/-- The severe remediation tags additionally added when fitness < 0.5
(`_suggest_mutations`). -/
def severe_mutations : List String :=
  [ "complete_architecture_redesign", "alternative_implementation_strategy",
    "user_experience_overhaul", "integration_method_change" ]

/-- `WorkflowEvolutionTracker._suggest_mutations` as a function of the
fitness value it reads. -/
def suggest_mutations (fitness : ℚ) : List String :=
  (if fitness < 7/10 then moderate_mutations else []) ++
  (if fitness < 5/10 then severe_mutations else [])

/-- The `WorkflowEvolutionTracker`'s three registries. -/
structure EvolutionTracker where
  evolution_history : List (String × List EvolutionData)
  fitness_scores : List (String × ℚ)
  mutation_strategies : List (String × List String)
deriving Repr, DecidableEq

/-- The tracker with all registries empty (`WorkflowEvolutionTracker.__init__`). -/
def EvolutionTracker.empty : EvolutionTracker := ⟨[], [], []⟩

/-- `WorkflowEvolutionTracker.track_execution`: creates the id's history on
first use, appends the (defaulted) evolution record, recomputes the fitness
score over the last ten entries, then recomputes the mutation suggestions
from the stored fitness (defaulting to 0.5 if absent).  It raises no error
for an unknown workflow id. -/
def track_execution (t : EvolutionTracker) (workflow_id : String)
    (r : ExecutionResult) (now : ℚ) : EvolutionTracker :=
  let history := (t.evolution_history.lookup workflow_id).getD []
  let newHistory := history ++ [make_evolution_data r now]
  let histories := updateAssoc t.evolution_history workflow_id newHistory
  let scores :=
    match calculate_fitness_score newHistory with
    | none => t.fitness_scores
    | some f => updateAssoc t.fitness_scores workflow_id f
  let fitness := (scores.lookup workflow_id).getD (1/2)
  let strategies :=
    updateAssoc t.mutation_strategies workflow_id (suggest_mutations fitness)
  ⟨histories, scores, strategies⟩

/-! ### Concrete inputs used by the scenario theorems and counterexamples -/

/-- The customer-communication intent category. -/
def intent_cust : Intent := ⟨"customer_communication_optimization"⟩

/-- A non-customer intent category (`workflow_automation_enhancement`). -/
def intent_other : Intent := ⟨"workflow_automation_enhancement"⟩

/-- The §8 scenario weight vector: time_pressure 0.8, resource_availability
0.6, user_expertise 0.5, system_load 0.4, error_tolerance 0.1. -/
def weights_c3 : Weights := ⟨8/10, 6/10, 5/10, 4/10, 1/10⟩

/-- The speed-optimized catalog entry. -/
def speed_variant : Variant :=
  { type := "speed_optimized",
    characteristics := ["parallel_execution", "minimal_validation", "cached_results"],
    trade_offs := { speed := 95/100, reliability := 8/10, resource_usage := 9/10 } }

/-- The reliability-optimized catalog entry. -/
def reliability_variant : Variant :=
  { type := "reliability_optimized",
    characteristics := ["comprehensive_validation", "redundant_execution", "extensive_logging"],
    trade_offs := { speed := 7/10, reliability := 98/100, resource_usage := 6/10 } }

/-- The learning-optimized catalog entry. -/
def learning_variant : Variant :=
  { type := "learning_optimized",
    characteristics := ["experimental_paths", "a_b_testing", "continuous_optimization"],
    trade_offs := { speed := 8/10, reliability := 85/100, resource_usage := 7/10 } }

/-- The user-experience-optimized catalog entry. -/
def ux_variant : Variant :=
  { type := "ux_optimized",
    characteristics := ["intuitive_feedback", "proactive_communication", "graceful_degradation"],
    trade_offs := { speed := 85/100, reliability := 9/10, resource_usage := 8/10 } }

/-- A variant whose type is not the ux archetype but contains it as a
substring. -/
def aux_variant : Variant :=
  { type := "aux_optimized", characteristics := [],
    trade_offs := { speed := 1, reliability := 1, resource_usage := 1 } }

/-- Tie-break counterexample variant listed first. -/
def vb_variant : Variant :=
  { type := "b_type", characteristics := [],
    trade_offs := { speed := 1, reliability := 1, resource_usage := 1 } }

/-- Tie-break counterexample variant listed second, same trade-offs,
lexicographically smaller type name. -/
def va_variant : Variant :=
  { type := "a_type", characteristics := [],
    trade_offs := { speed := 1, reliability := 1, resource_usage := 1 } }

/-- An already-collapsed workflow record (state `COLLAPSED`, a selected
variant and a collapse timestamp of 5 already stored). -/
def wf_c1 : Workflow :=
  { id := "w1"
    intent := intent_cust
    state := WorkflowState.COLLAPSED
    possible_implementations := generate_implementation_variants
    consciousness_level := 9/10
    creation_timestamp := 1
    selected_variant := some vb_variant
    execution_plan := some []
    execution_context := none
    collapse_timestamp := some 5 }

/-- The re-collapse of `wf_c1` at time 9, with an empty execution context. -/
def c1_result : Except EngineError (List (String × Workflow) × Workflow) :=
  collapse_workflow [("w1", wf_c1)] "w1" {} 9

/-- An execution context whose `urgency` entry is 5, far outside `[0, 1]`. -/
def ctx_c5 : ExecContext := { urgency := some 5 }

/-- The conversion of an execution context into a weight vector as the
specification's claim describes it: fail (here: `none`) whenever any
supplied field lies outside `[0, 1]`; this definition exists only to be
compared against the code's `analyze_execution_context`. -/
def claimed_analyze_context (c : ExecContext) : Option Weights :=
  let inRange : Option ℚ → Bool := fun o =>
    match o with
    | none => true
    | some q => decide (0 ≤ q) && decide (q ≤ 1)
  if inRange c.urgency && inRange c.resources && inRange c.user_skill_level &&
      inRange c.current_load && inRange c.error_tolerance then
    some (analyze_execution_context c)
  else
    none

/-- The variant score as the specification's claim describes it: the bonus
applies only when the type *is* the ux archetype (equality, not substring
containment); this definition exists only to be compared against the code's
`calculate_variant_score`. -/
def claimed_variant_score (v : Variant) (w : Weights) (intent : Intent) : ℚ :=
  variant_base_score v w +
    (if v.type = "ux_optimized" ∧
        intent.primary_goal = "customer_communication_optimization" then 1/10 else 0)

/-- Outcome 1 of the §8 fitness scenario. -/
def outcome1 : ExecutionResult :=
  { success := some true, user_satisfaction := some (9/10), resource_usage := some (7/10) }

/-- Outcome 2 of the §8 fitness scenario. -/
def outcome2 : ExecutionResult :=
  { success := some true, user_satisfaction := some (8/10), resource_usage := some (75/100) }

/-- Outcome 3 of the §8 fitness scenario. -/
def outcome3 : ExecutionResult :=
  { success := some true, user_satisfaction := some (85/100), resource_usage := some (8/10) }

/-- The tracker after recording the three scenario outcomes for `"w"`. -/
def tracker_c6 : EvolutionTracker :=
  track_execution
    (track_execution (track_execution EvolutionTracker.empty "w" outcome1 1) "w" outcome2 2)
    "w" outcome3 3

/-- A uniformly bad outcome (satisfaction 0, efficiency 0, failure). -/
def outcome_low : ExecutionResult :=
  { duration := some 0, success := some false, user_satisfaction := some 0,
    resource_usage := some 0, errors := some 1, ai_suggestions := some [] }

/-- The tracker after recording the uniformly bad outcome (fitness 0). -/
def tracker_low : EvolutionTracker :=
  track_execution EvolutionTracker.empty "w" outcome_low 1

/-- A partially absent outcome: `user_satisfaction` is supplied (0.2), every
other key is absent. -/
def outcome_partial : ExecutionResult := { user_satisfaction := some (2/10) }

/-! ### Helper lemmas -/

theorem lookup_updateAssoc_self {α : Type} (l : List (String × α)) (k : String) (v : α) :
    (updateAssoc l k v).lookup k = some v := by
  induction l with
  | nil => simp [updateAssoc, List.lookup]
  | cons hd tl ih =>
    obtain ⟨k', v'⟩ := hd
    by_cases h : k' = k
    · simp [updateAssoc, h, List.lookup]
    · simp only [updateAssoc, if_neg h, List.lookup]
      have : (k == k') = false := by
        simp [beq_iff_eq]
        exact fun hk => h hk.symm
      simp [this, ih]

theorem calculate_fitness_score_of_ne_nil {h : List EvolutionData} (hne : h ≠ []) :
    calculate_fitness_score h = some (fitness_val h) := by
  cases h with
  | nil => exact absurd rfl hne
  | cons a as => rfl

theorem lastTen_length {α : Type} (l : List α) :
    (lastTen l).length = min 10 l.length := by
  simp [lastTen]
  omega

/-- Componentwise comparison of the fitness-relevant fields of two evolution
records. -/
def dataLE (a b : EvolutionData) : Prop :=
  a.user_satisfaction ≤ b.user_satisfaction ∧
  a.resource_efficiency ≤ b.resource_efficiency ∧
  (a.success_rate = true → b.success_rate = true)

theorem dataLE_refl (a : EvolutionData) : dataLE a a :=
  ⟨le_refl _, le_refl _, fun h => h⟩

theorem sum_map_le_of_forall₂ {α : Type} {R : α → α → Prop} (f : α → ℚ)
    (hf : ∀ a b, R a b → f a ≤ f b) :
    ∀ {l₁ l₂ : List α}, List.Forall₂ R l₁ l₂ → (l₁.map f).sum ≤ (l₂.map f).sum := by
  intro l₁ l₂ h
  induction h with
  | nil => simp
  | cons hab _ ih =>
    simp only [List.map_cons, List.sum_cons]
    exact add_le_add (hf _ _ hab) ih

theorem fitness_val_mono {h₁ h₂ : List EvolutionData}
    (h : List.Forall₂ dataLE h₁ h₂) : fitness_val h₁ ≤ fitness_val h₂ := by
  have hlen : h₁.length = h₂.length := h.length_eq
  have hrec : List.Forall₂ dataLE (lastTen h₁) (lastTen h₂) := by
    simp only [lastTen, hlen]
    exact List.forall₂_drop _ h
  have hlenr : (lastTen h₁).length = (lastTen h₂).length := hrec.length_eq
  have hn0 : (0:ℚ) ≤ ((lastTen h₂).length : ℚ) := Nat.cast_nonneg _
  have hs := sum_map_le_of_forall₂ (fun e => e.user_satisfaction)
    (fun a b hab => hab.1) hrec
  have he := sum_map_le_of_forall₂ (fun e => e.resource_efficiency)
    (fun a b hab => hab.2.1) hrec
  have hb := sum_map_le_of_forall₂ (fun e => boolVal e.success_rate)
    (fun a b hab => by
      cases ha : a.success_rate with
      | true => simp [boolVal, ha, hab.2.2 ha]
      | false => cases hbb : b.success_rate <;> simp [boolVal, ha, hbb]) hrec
  have hterm : ∀ (x y c : ℚ), x ≤ y → 0 ≤ c →
      x / ((lastTen h₂).length : ℚ) * c ≤ y / ((lastTen h₂).length : ℚ) * c := by
    intro x y c hxy hc
    apply mul_le_mul_of_nonneg_right _ hc
    rw [div_eq_mul_inv, div_eq_mul_inv]
    exact mul_le_mul_of_nonneg_right hxy (inv_nonneg.mpr hn0)
  simp only [fitness_val, hlenr]
  have t1 := hterm _ _ (4/10) hs (by norm_num)
  have t2 := hterm _ _ (3/10) he (by norm_num)
  have t3 := hterm _ _ (3/10) hb (by norm_num)
  linarith

theorem fitness_val_bounds {h : List EvolutionData} (hne : h ≠ [])
    (hb : ∀ e ∈ h, 0 ≤ e.user_satisfaction ∧ e.user_satisfaction ≤ 1 ∧
      0 ≤ e.resource_efficiency ∧ e.resource_efficiency ≤ 1) :
    0 ≤ fitness_val h ∧ fitness_val h ≤ 1 := by
  have hrecsub : ∀ e ∈ lastTen h, e ∈ h := fun e he => List.mem_of_mem_drop he
  have hlen : 0 < (lastTen h).length := by
    rw [lastTen_length]
    have := List.length_pos.mpr hne
    omega
  have hn : (0:ℚ) < ((lastTen h).length : ℚ) := by exact_mod_cast hlen
  have havg : ∀ (f : EvolutionData → ℚ), (∀ e ∈ lastTen h, 0 ≤ f e ∧ f e ≤ 1) →
      0 ≤ ((lastTen h).map f).sum / ((lastTen h).length : ℚ) ∧
      ((lastTen h).map f).sum / ((lastTen h).length : ℚ) ≤ 1 := by
    intro f hf
    constructor
    · apply div_nonneg _ (le_of_lt hn)
      apply List.sum_nonneg
      intro x hx
      obtain ⟨e, he, rfl⟩ := List.mem_map.mp hx
      exact (hf e he).1
    · rw [div_le_one hn]
      have hsum := List.sum_le_card_nsmul ((lastTen h).map f) 1 ?_
      · simpa using hsum
      · intro x hx
        obtain ⟨e, he, rfl⟩ := List.mem_map.mp hx
        exact (hf e he).2
  have h1 := havg (fun e => e.user_satisfaction)
    (fun e he => ⟨(hb e (hrecsub e he)).1, (hb e (hrecsub e he)).2.1⟩)
  have h2 := havg (fun e => e.resource_efficiency)
    (fun e he => ⟨(hb e (hrecsub e he)).2.2.1, (hb e (hrecsub e he)).2.2.2⟩)
  have h3 := havg (fun e => boolVal e.success_rate)
    (fun e _ => by cases hse : e.success_rate <;> simp [boolVal, hse])
  simp only [fitness_val]
  constructor <;> linarith [h1.1, h1.2, h2.1, h2.2, h3.1, h3.2]

theorem foldl_pick_first_max {α : Type} (score : α → ℚ) :
    ∀ (l : List α) (b : α),
      ∃ l₁ l₂,
        b :: l = l₁ ++
          (l.foldl (fun best cur => if score best < score cur then cur else best) b) :: l₂ ∧
        (∀ u ∈ l₁, score u <
          score (l.foldl (fun best cur => if score best < score cur then cur else best) b)) ∧
        (∀ u ∈ l₂, score u ≤
          score (l.foldl (fun best cur => if score best < score cur then cur else best) b)) := by
  intro l
  induction l with
  | nil => exact fun b => ⟨[], [], rfl, by simp, by simp⟩
  | cons u rest ih =>
    intro b
    by_cases hbu : score b < score u
    · obtain ⟨l₁, l₂, hsplit, h₁, h₂⟩ := ih u
      have hfold : (u :: rest).foldl
          (fun best cur => if score best < score cur then cur else best) b =
          rest.foldl (fun best cur => if score best < score cur then cur else best) u := by
        simp [List.foldl_cons, if_pos hbu]
      rw [hfold]
      set r := rest.foldl (fun best cur => if score best < score cur then cur else best) u with hr
      have hur : score u ≤ score r := by
        cases l₁ with
        | nil =>
          simp only [List.nil_append] at hsplit
          have : u = r := (List.cons.injEq _ _ _ _).mp hsplit |>.1
          exact this ▸ le_refl _
        | cons p l₁' =>
          have hp : p = u := ((List.cons.injEq _ _ _ _).mp (by simpa using hsplit)).1.symm
          exact le_of_lt (hp ▸ h₁ p (List.mem_cons_self _ _))
      refine ⟨b :: l₁, l₂, ?_, ?_, h₂⟩
      · simpa using hsplit
      · intro x hx
        rcases List.mem_cons.mp hx with rfl | hxl
        · exact lt_of_lt_of_le hbu hur
        · exact h₁ x hxl
    · obtain ⟨l₁, l₂, hsplit, h₁, h₂⟩ := ih b
      have hfold : (u :: rest).foldl
          (fun best cur => if score best < score cur then cur else best) b =
          rest.foldl (fun best cur => if score best < score cur then cur else best) b := by
        simp [List.foldl_cons, if_neg hbu]
      rw [hfold]
      set r := rest.foldl (fun best cur => if score best < score cur then cur else best) b with hr
      cases l₁ with
      | nil =>
        simp only [List.nil_append] at hsplit
        obtain ⟨hbr, hrest⟩ := (List.cons.injEq _ _ _ _).mp hsplit
        refine ⟨[], u :: l₂, ?_, by simp, ?_⟩
        · simp [← hbr, ← hrest]
        · intro x hx
          rcases List.mem_cons.mp hx with rfl | hxl
          · exact hbr ▸ le_of_not_lt hbu
          · exact h₂ x hxl
      | cons p l₁' =>
        obtain ⟨hpb, hrest⟩ := (List.cons.injEq _ _ _ _).mp (by simpa using hsplit)
        have hbr : score b < score r := hpb ▸ h₁ p (List.mem_cons_self _ _)
        refine ⟨b :: u :: l₁', l₂, ?_, ?_, h₂⟩
        · simp [hrest]
        · intro x hx
          rcases List.mem_cons.mp hx with rfl | hx'
          · exact hbr
          · rcases List.mem_cons.mp hx' with rfl | hx''
            · exact lt_of_le_of_lt (le_of_not_lt hbu) hbr
            · exact h₁ x (List.mem_cons_of_mem _ hx'')

/-! ### Claim theorems -/

/-- C1, counterexample: `collapse_workflow` performs no lifecycle check.  On
a workflow already in state `COLLAPSED` with a stored collapse timestamp of 5,
calling collapse again at time 9 does not fail: it returns `ok` and the
stored timestamp and selected variant are silently overwritten. -/
theorem collapse_recollapse_cex :
    wf_c1.state = WorkflowState.COLLAPSED ∧
    wf_c1.collapse_timestamp = some 5 ∧
    wf_c1.selected_variant = some vb_variant ∧
    c1_result.toOption.map (fun p => p.2.collapse_timestamp) = some (some 9) ∧
    c1_result.toOption.map (fun p => p.2.selected_variant) = some (some ux_variant) := by
  have hs : pyIn "ux_optimized" "speed_optimized" = false := by decide
  have hr : pyIn "ux_optimized" "reliability_optimized" = false := by decide
  have hl : pyIn "ux_optimized" "learning_optimized" = false := by decide
  have hu : pyIn "ux_optimized" "ux_optimized" = true := by decide
  refine ⟨rfl, rfl, rfl, ?_, ?_⟩ <;>
    norm_num [c1_result, collapse_workflow, wf_c1, List.lookup, select_optimal_variant,
      generate_implementation_variants, calculate_variant_score, variant_base_score,
      analyze_execution_context, intent_cust, ux_variant, updateAssoc, Except.toOption,
      hs, hr, hl, hu]

/-- C1, amended: calling collapse on a workflow whose lifecycle state is
`COLLAPSED` or `EVOLVING` does not fail with any lifecycle error; the code
never inspects the state, re-runs variant selection, and overwrites the
stored selected variant, execution plan, lifecycle state and collapse
timestamp. -/
theorem collapse_no_lifecycle_guard
    (store : List (String × Workflow)) (wid : String) (wf : Workflow)
    (ctx : ExecContext) (now : ℚ)
    (hlk : store.lookup wid = some wf)
    (hst : wf.state = WorkflowState.COLLAPSED ∨ wf.state = WorkflowState.EVOLVING)
    (hne : wf.possible_implementations ≠ []) :
    ∃ v, select_optimal_variant wf.possible_implementations
        (analyze_execution_context ctx) wf.intent = some v ∧
      collapse_workflow store wid ctx now =
        Except.ok
          (updateAssoc store wid
            { wf with
                state := WorkflowState.COLLAPSED
                selected_variant := some v
                execution_plan := some (generate_execution_plan v wf.intent)
                execution_context := some ctx
                collapse_timestamp := some now },
           { wf with
              state := WorkflowState.COLLAPSED
              selected_variant := some v
              execution_plan := some (generate_execution_plan v wf.intent)
              execution_context := some ctx
              collapse_timestamp := some now }) := by
  have hsel : ∃ v, select_optimal_variant wf.possible_implementations
      (analyze_execution_context ctx) wf.intent = some v := by
    cases hvs : wf.possible_implementations with
    | nil => exact absurd hvs hne
    | cons a as => exact ⟨_, rfl⟩
  obtain ⟨v, hv⟩ := hsel
  exact ⟨v, hv, by simp [collapse_workflow, hlk, hv]⟩

/-- Witness for C1's amended theorem at a concrete already-collapsed
workflow. -/
theorem collapse_no_lifecycle_guard_witness :
    ∃ v, select_optimal_variant wf_c1.possible_implementations
        (analyze_execution_context {}) wf_c1.intent = some v ∧
      collapse_workflow [("w1", wf_c1)] "w1" {} 9 =
        Except.ok
          (updateAssoc [("w1", wf_c1)] "w1"
            { wf_c1 with
                state := WorkflowState.COLLAPSED
                selected_variant := some v
                execution_plan := some (generate_execution_plan v wf_c1.intent)
                execution_context := some {}
                collapse_timestamp := some 9 },
           { wf_c1 with
              state := WorkflowState.COLLAPSED
              selected_variant := some v
              execution_plan := some (generate_execution_plan v wf_c1.intent)
              execution_context := some {}
              collapse_timestamp := some 9 }) :=
  collapse_no_lifecycle_guard [("w1", wf_c1)] "w1" wf_c1 {} 9 rfl (Or.inl rfl) (by decide)

/-- C2, counterexample: the bonus test in `_calculate_variant_score` is a
substring containment test, not an equality test on the archetype name.  The
variant whose type is `"aux_optimized"` is not the ux archetype, yet the code
gives it the +0.1 bonus, so the code's score differs from the claimed one. -/
theorem variant_score_substring_cex :
    aux_variant.type ≠ "ux_optimized" ∧
    calculate_variant_score aux_variant weights_c3 intent_cust =
      variant_base_score aux_variant weights_c3 + 1/10 ∧
    calculate_variant_score aux_variant weights_c3 intent_cust ≠
      claimed_variant_score aux_variant weights_c3 intent_cust := by
  have ha : pyIn "ux_optimized" "aux_optimized" = true := by decide
  have hne : aux_variant.type ≠ "ux_optimized" := by decide
  have hne2 : ("aux_optimized" : String) ≠ "ux_optimized" := by decide
  refine ⟨hne, ?_, ?_⟩ <;>
    norm_num [calculate_variant_score, claimed_variant_score, variant_base_score,
      aux_variant, weights_c3, intent_cust, ha, hne2]

/-- C2, amended: for every variant, weight vector and intent, the score is
the mean of speed·time_pressure, reliability·(1 − error_tolerance) and
resource_usage·resource_availability, plus exactly 0.1 when `"ux_optimized"`
occurs as a substring of the variant's type AND the intent's primary goal is
the customer-communication category, and plus nothing otherwise. -/
theorem variant_score_formula (v : Variant) (w : Weights) (i : Intent) :
    calculate_variant_score v w i =
      variant_base_score v w +
        (if i.primary_goal = "customer_communication_optimization" ∧
            pyIn "ux_optimized" v.type = true then 1/10 else 0) := by
  by_cases h : i.primary_goal = "customer_communication_optimization" ∧
      pyIn "ux_optimized" v.type = true
  · simp [calculate_variant_score, h]
  · simp [calculate_variant_score, h]

/-- C3: on the standard four-variant catalog, the customer-communication
intent and the §8 weight vector, the selector returns the ux-optimized
variant, whose bonus-boosted score strictly exceeds every other variant's
score. -/
theorem selector_customer_scenario :
    select_optimal_variant generate_implementation_variants weights_c3 intent_cust =
      some ux_variant ∧
    generate_implementation_variants =
      [speed_variant, reliability_variant, learning_variant, ux_variant] ∧
    calculate_variant_score speed_variant weights_c3 intent_cust <
      calculate_variant_score ux_variant weights_c3 intent_cust ∧
    calculate_variant_score reliability_variant weights_c3 intent_cust <
      calculate_variant_score ux_variant weights_c3 intent_cust ∧
    calculate_variant_score learning_variant weights_c3 intent_cust <
      calculate_variant_score ux_variant weights_c3 intent_cust := by
  have hs : pyIn "ux_optimized" "speed_optimized" = false := by decide
  have hr : pyIn "ux_optimized" "reliability_optimized" = false := by decide
  have hl : pyIn "ux_optimized" "learning_optimized" = false := by decide
  have hu : pyIn "ux_optimized" "ux_optimized" = true := by decide
  refine ⟨?_, rfl, ?_, ?_, ?_⟩ <;>
    norm_num [select_optimal_variant, generate_implementation_variants, calculate_variant_score,
      variant_base_score, weights_c3, intent_cust, speed_variant, reliability_variant,
      learning_variant, ux_variant, hs, hr, hl, hu]

/-- C5, counterexample: `_analyze_execution_context` never fails.  On a
context whose `urgency` is 5 (outside [0,1]) the claimed conversion rejects
the input, but the code returns a weight vector that carries the
out-of-range value through, filling every missing key with its fallback. -/
theorem context_no_validation_cex :
    claimed_analyze_context ctx_c5 = none ∧
    analyze_execution_context ctx_c5 =
      { time_pressure := 5, resource_availability := 8/10, user_expertise := 6/10,
        system_load := 3/10, error_tolerance := 7/10 } ∧
    ¬ (analyze_execution_context ctx_c5).time_pressure ≤ 1 := by
  refine ⟨?_, rfl, ?_⟩ <;>
    norm_num [claimed_analyze_context, analyze_execution_context, ctx_c5]

/-- C5, amended: converting an execution context into the weight vector
never fails: each absent key is silently replaced by its fixed fallback
(urgency→0.5, resources→0.8, user_skill_level→0.6, current_load→0.3,
error_tolerance→0.7) and each supplied value is passed through without any
range validation. -/
theorem analyze_context_total_defaults (c : ExecContext) :
    ((c.urgency = none → (analyze_execution_context c).time_pressure = 1/2) ∧
      (∀ q, c.urgency = some q → (analyze_execution_context c).time_pressure = q)) ∧
    ((c.resources = none → (analyze_execution_context c).resource_availability = 8/10) ∧
      (∀ q, c.resources = some q → (analyze_execution_context c).resource_availability = q)) ∧
    ((c.user_skill_level = none → (analyze_execution_context c).user_expertise = 6/10) ∧
      (∀ q, c.user_skill_level = some q → (analyze_execution_context c).user_expertise = q)) ∧
    ((c.current_load = none → (analyze_execution_context c).system_load = 3/10) ∧
      (∀ q, c.current_load = some q → (analyze_execution_context c).system_load = q)) ∧
    ((c.error_tolerance = none → (analyze_execution_context c).error_tolerance = 7/10) ∧
      (∀ q, c.error_tolerance = some q → (analyze_execution_context c).error_tolerance = q)) := by
  refine ⟨⟨?_, ?_⟩, ⟨?_, ?_⟩, ⟨?_, ?_⟩, ⟨?_, ?_⟩, ⟨?_, ?_⟩⟩ <;>
    first
      | (intro h; simp [analyze_execution_context, h])
      | (intro q h; simp [analyze_execution_context, h])

/-- Witness for C5's amended theorem: the out-of-range urgency value 5 is
passed through and the absent resources key falls back to 0.8. -/
theorem analyze_context_total_defaults_witness :
    (analyze_execution_context ctx_c5).time_pressure = 5 ∧
    (analyze_execution_context ctx_c5).resource_availability = 8/10 :=
  ⟨(analyze_context_total_defaults ctx_c5).1.2 5 rfl,
   (analyze_context_total_defaults ctx_c5).2.1.1 rfl⟩

/-- C8, counterexample: `track_execution` on an id with no prior history
does not fail: it silently creates a fresh history entry for that id,
records the outcome and computes a fitness score for it. -/
theorem track_unknown_creates_entry_cex :
    EvolutionTracker.empty.evolution_history.lookup "w1" = none ∧
    (track_execution EvolutionTracker.empty "w1" outcome1 7).evolution_history.lookup "w1" =
      some [make_evolution_data outcome1 7] ∧
    (track_execution EvolutionTracker.empty "w1" outcome1 7).fitness_scores.lookup "w1" ≠
      none := by
  refine ⟨rfl, ?_, ?_⟩ <;>
    simp [track_execution, EvolutionTracker.empty, calculate_fitness_score,
      updateAssoc, List.lookup]

/-- C8, amended: recording an outcome for a workflow id with no prior
history (no prior collapse tracked) raises no error; the tracker initializes
an empty history for the id, appends the outcome, and stores a fitness score
computed from that single outcome. -/
theorem track_unknown_initializes (t : EvolutionTracker) (wid : String)
    (r : ExecutionResult) (now : ℚ)
    (h : t.evolution_history.lookup wid = none) :
    (track_execution t wid r now).evolution_history.lookup wid =
      some [make_evolution_data r now] ∧
    (track_execution t wid r now).fitness_scores.lookup wid =
      some (fitness_val [make_evolution_data r now]) := by
  simp [track_execution, h, calculate_fitness_score, lookup_updateAssoc_self]

/-- Witness for C8's amended theorem at the empty tracker. -/
theorem track_unknown_initializes_witness :
    (track_execution EvolutionTracker.empty "w2" outcome2 3).evolution_history.lookup "w2" =
      some [make_evolution_data outcome2 3] ∧
    (track_execution EvolutionTracker.empty "w2" outcome2 3).fitness_scores.lookup "w2" =
      some (fitness_val [make_evolution_data outcome2 3]) :=
  track_unknown_initializes EvolutionTracker.empty "w2" outcome2 3 rfl

/-- C9: after any `track_execution` call that stores fitness `f`, the stored
mutation-suggestion list is `suggest_mutations f`, and that list includes the
whole moderate and severe tag sets when `f < 0.5`, is exactly the moderate
set when `0.5 ≤ f < 0.7`, and is empty when `0.7 ≤ f`. -/
theorem mutation_thresholds (t : EvolutionTracker) (wid : String)
    (r : ExecutionResult) (now : ℚ) (f : ℚ)
    (hf : (track_execution t wid r now).fitness_scores.lookup wid = some f) :
    (track_execution t wid r now).mutation_strategies.lookup wid =
      some (suggest_mutations f) ∧
    (f < 5/10 → (∀ m ∈ moderate_mutations, m ∈ suggest_mutations f) ∧
                (∀ m ∈ severe_mutations, m ∈ suggest_mutations f)) ∧
    (5/10 ≤ f → f < 7/10 → suggest_mutations f = moderate_mutations) ∧
    (7/10 ≤ f → suggest_mutations f = []) := by
  refine ⟨?_, ?_, ?_, ?_⟩
  · simp only [track_execution] at hf ⊢
    rw [lookup_updateAssoc_self, hf]
    rfl
  · intro h5
    have h7 : f < 7/10 := by linarith
    constructor
    · intro m hm
      simp only [suggest_mutations, if_pos h7, if_pos h5]
      exact List.mem_append_left _ hm
    · intro m hm
      simp only [suggest_mutations, if_pos h7, if_pos h5]
      exact List.mem_append_right _ hm
  · intro h5 h7
    simp [suggest_mutations, if_pos h7, if_neg (not_lt.mpr h5)]
  · intro h7
    have h5 : ¬ f < 5/10 := by intro h; linarith
    simp [suggest_mutations, if_neg (not_lt.mpr h7), if_neg h5]

/-- Witness for C9 at a concrete run with fitness 0 (below 0.5): both
remediation sets are present in the stored suggestion list. -/
theorem mutation_thresholds_witness :
    tracker_low.mutation_strategies.lookup "w" = some (suggest_mutations 0) ∧
    "implement_caching" ∈ suggest_mutations 0 ∧
    "user_experience_overhaul" ∈ suggest_mutations 0 := by
  have h := mutation_thresholds EvolutionTracker.empty "w" outcome_low 1 0
    (by norm_num [track_execution, EvolutionTracker.empty, calculate_fitness_score,
      fitness_val, lastTen, boolVal, make_evolution_data, outcome_low, updateAssoc,
      List.lookup])
  exact ⟨h.1, (h.2.1 (by norm_num)).1 _ (by decide), (h.2.1 (by norm_num)).2 _ (by decide)⟩

/-- C10: for every recorded execution result, `track_execution` never fails
on an absent field: each absent field is silently replaced by its fixed
default (success `true`, user_satisfaction 0.8, resource_efficiency 0.7,
duration and error count 0, suggestions `[]`) while each supplied field
passes through unchanged; the resulting record is appended to the stored
history and the recomputed fitness is taken over that history (a single
all-default outcome yields fitness 0.83). -/
theorem track_defaults :
    (∀ (t : EvolutionTracker) (wid : String) (r : ExecutionResult) (now : ℚ),
      ∃ d, d = make_evolution_data r now ∧
        (track_execution t wid r now).evolution_history.lookup wid =
          some ((t.evolution_history.lookup wid).getD [] ++ [d]) ∧
        (track_execution t wid r now).fitness_scores.lookup wid =
          some (fitness_val ((t.evolution_history.lookup wid).getD [] ++ [d])) ∧
        d.timestamp = now ∧
        ((r.duration = none → d.execution_time = 0) ∧
          (∀ q, r.duration = some q → d.execution_time = q)) ∧
        ((r.success = none → d.success_rate = true) ∧
          (∀ b, r.success = some b → d.success_rate = b)) ∧
        ((r.user_satisfaction = none → d.user_satisfaction = 8/10) ∧
          (∀ q, r.user_satisfaction = some q → d.user_satisfaction = q)) ∧
        ((r.resource_usage = none → d.resource_efficiency = 7/10) ∧
          (∀ q, r.resource_usage = some q → d.resource_efficiency = q)) ∧
        ((r.errors = none → d.error_count = 0) ∧
          (∀ q, r.errors = some q → d.error_count = q)) ∧
        ((r.ai_suggestions = none → d.improvement_suggestions = []) ∧
          (∀ l, r.ai_suggestions = some l → d.improvement_suggestions = l))) ∧
    (track_execution EvolutionTracker.empty "w" {} 5).fitness_scores.lookup "w" =
      some (83/100) := by
  constructor
  · intro t wid r now
    refine ⟨make_evolution_data r now, rfl, ?_, ?_, rfl, ?_⟩
    · simp only [track_execution]
      rw [lookup_updateAssoc_self]
    · simp only [track_execution]
      rw [calculate_fitness_score_of_ne_nil (by simp), lookup_updateAssoc_self]
    · refine ⟨⟨?_, ?_⟩, ⟨?_, ?_⟩, ⟨?_, ?_⟩, ⟨?_, ?_⟩, ⟨?_, ?_⟩, ⟨?_, ?_⟩⟩ <;>
        first
          | (intro h; simp [make_evolution_data, h])
          | (intro q h; simp [make_evolution_data, h])
  · norm_num [track_execution, make_evolution_data, calculate_fitness_score, fitness_val,
      lastTen, boolVal, updateAssoc, EvolutionTracker.empty, List.lookup]

/-- Witness for C10 at the partially absent outcome: the supplied
satisfaction 0.2 passes through while the absent success and efficiency
fields get their defaults, and the record reaches the stored history. -/
theorem track_defaults_witness :
    (make_evolution_data outcome_partial 4).success_rate = true ∧
    (make_evolution_data outcome_partial 4).user_satisfaction = 2/10 ∧
    (make_evolution_data outcome_partial 4).resource_efficiency = 7/10 ∧
    (track_execution EvolutionTracker.empty "w3" outcome_partial 4).evolution_history.lookup
      "w3" = some [make_evolution_data outcome_partial 4] := by
  obtain ⟨d, hd, hhist, _hfit, _ht, _hdur, hsucc, hsat, heff, _herr, _hsugg⟩ :=
    track_defaults.1 EvolutionTracker.empty "w3" outcome_partial 4
  subst hd
  refine ⟨hsucc.1 rfl, hsat.2 _ rfl, heff.1 rfl, ?_⟩
  simpa using hhist

/-- C4, counterexample: the code breaks score ties by position in the
variant list (stable descending sort, first element), not by lexicographic
order of the type name.  With two equally scored variants listed as
`["b_type", "a_type"]`, the selector returns `"b_type"` although `"a_type"`
is lexicographically smaller. -/
theorem selector_tiebreak_cex :
    calculate_variant_score va_variant weights_c3 intent_other =
      calculate_variant_score vb_variant weights_c3 intent_other ∧
    select_optimal_variant [vb_variant, va_variant] weights_c3 intent_other =
      some vb_variant ∧
    va_variant.type < vb_variant.type := by
  have hi : ("workflow_automation_enhancement" : String) ≠
      "customer_communication_optimization" := by decide
  refine ⟨?_, ?_, ?_⟩
  · norm_num [calculate_variant_score, variant_base_score,
      va_variant, vb_variant, weights_c3, intent_other, hi]
  · norm_num [select_optimal_variant, calculate_variant_score, variant_base_score,
      va_variant, vb_variant, weights_c3, intent_other, hi]
  · show va_variant.type < vb_variant.type
    rw [String.lt_iff_toList_lt]
    decide

/-- C4, amended: for every variant list, weight vector and intent, the
selector returns the *first* variant in list order among those attaining the
maximal score: every variant before it scores strictly less and every
variant after it scores at most as much. -/
theorem selector_first_max (variants : List Variant) (w : Weights) (i : Intent)
    (v : Variant) (h : select_optimal_variant variants w i = some v) :
    ∃ l₁ l₂, variants = l₁ ++ v :: l₂ ∧
      (∀ u ∈ l₁, calculate_variant_score u w i < calculate_variant_score v w i) ∧
      (∀ u ∈ l₂, calculate_variant_score u w i ≤ calculate_variant_score v w i) := by
  cases variants with
  | nil => simp [select_optimal_variant] at h
  | cons a as =>
    simp only [select_optimal_variant, Option.some.injEq] at h
    obtain ⟨l₁, l₂, hsplit, h₁, h₂⟩ :=
      foldl_pick_first_max (fun u => calculate_variant_score u w i) as a
    rw [h] at hsplit h₁ h₂
    exact ⟨l₁, l₂, hsplit, h₁, h₂⟩

/-- Witness for C4's amended theorem on the two-variant tie: the returned
variant is the first of the list, with the tied one after it. -/
theorem selector_first_max_witness :
    ∃ l₁ l₂, [vb_variant, va_variant] = l₁ ++ vb_variant :: l₂ ∧
      (∀ u ∈ l₁, calculate_variant_score u weights_c3 intent_other <
        calculate_variant_score vb_variant weights_c3 intent_other) ∧
      (∀ u ∈ l₂, calculate_variant_score u weights_c3 intent_other ≤
        calculate_variant_score vb_variant weights_c3 intent_other) := by
  have hi : ("workflow_automation_enhancement" : String) ≠
      "customer_communication_optimization" := by decide
  exact selector_first_max [vb_variant, va_variant] weights_c3 intent_other vb_variant
    (by norm_num [select_optimal_variant, calculate_variant_score, variant_base_score,
      va_variant, vb_variant, weights_c3, intent_other, hi])

/-- C6: `track_execution` appends the new outcome record to the stored
history and recomputes the fitness score as
0.4·avg(user_satisfaction) + 0.3·avg(resource_efficiency) +
0.3·avg(success) over the most recent min(10, length) entries; on the §8
three-outcome scenario the fitness is exactly 0.865 and the stored
mutation-suggestion list is empty. -/
theorem track_appends_and_recomputes :
    (∀ (t : EvolutionTracker) (wid : String) (r : ExecutionResult) (now : ℚ),
      (t.evolution_history.lookup wid).getD [] ≠ [] →
      ∃ newHist,
        newHist = (t.evolution_history.lookup wid).getD [] ++ [make_evolution_data r now] ∧
        (track_execution t wid r now).evolution_history.lookup wid = some newHist ∧
        (lastTen newHist).length = min 10 newHist.length ∧
        (track_execution t wid r now).fitness_scores.lookup wid =
          some ((4/10) * (((lastTen newHist).map (fun e => e.user_satisfaction)).sum /
                ((lastTen newHist).length : ℚ)) +
              (3/10) * (((lastTen newHist).map (fun e => e.resource_efficiency)).sum /
                ((lastTen newHist).length : ℚ)) +
              (3/10) * (((lastTen newHist).map (fun e => boolVal e.success_rate)).sum /
                ((lastTen newHist).length : ℚ)))) ∧
    tracker_c6.fitness_scores.lookup "w" = some (865/1000) ∧
    tracker_c6.mutation_strategies.lookup "w" = some [] := by
  refine ⟨?_, ?_, ?_⟩
  · intro t wid r now _
    refine ⟨_, rfl, ?_, lastTen_length _, ?_⟩
    · simp only [track_execution]
      rw [lookup_updateAssoc_self]
    · simp only [track_execution]
      rw [calculate_fitness_score_of_ne_nil (by simp), lookup_updateAssoc_self]
      simp only [fitness_val]
      ring_nf
  · norm_num [tracker_c6, track_execution, EvolutionTracker.empty, make_evolution_data,
      outcome1, outcome2, outcome3, calculate_fitness_score, fitness_val, lastTen,
      boolVal, updateAssoc, List.lookup]
  · norm_num [tracker_c6, track_execution, EvolutionTracker.empty, make_evolution_data,
      outcome1, outcome2, outcome3, calculate_fitness_score, fitness_val, lastTen,
      boolVal, updateAssoc, List.lookup, suggest_mutations]

/-- Witness for C6's general part at a concrete one-entry history. -/
theorem track_appends_and_recomputes_witness :
    ∃ newHist,
      newHist = ((⟨[("w", [make_evolution_data outcome1 1])], [], []⟩ :
            EvolutionTracker).evolution_history.lookup "w").getD [] ++
          [make_evolution_data outcome2 2] ∧
      (track_execution (⟨[("w", [make_evolution_data outcome1 1])], [], []⟩ :
            EvolutionTracker) "w" outcome2 2).evolution_history.lookup "w" = some newHist ∧
      (lastTen newHist).length = min 10 newHist.length ∧
      (track_execution (⟨[("w", [make_evolution_data outcome1 1])], [], []⟩ :
            EvolutionTracker) "w" outcome2 2).fitness_scores.lookup "w" =
        some ((4/10) * (((lastTen newHist).map (fun e => e.user_satisfaction)).sum /
              ((lastTen newHist).length : ℚ)) +
            (3/10) * (((lastTen newHist).map (fun e => e.resource_efficiency)).sum /
              ((lastTen newHist).length : ℚ)) +
            (3/10) * (((lastTen newHist).map (fun e => boolVal e.success_rate)).sum /
              ((lastTen newHist).length : ℚ))) :=
  track_appends_and_recomputes.1
    (⟨[("w", [make_evolution_data outcome1 1])], [], []⟩ : EvolutionTracker)
    "w" outcome2 2 (by decide)

/-- C7: on any non-empty history whose satisfaction and efficiency values
lie in [0,1] (success is boolean, hence always in [0,1]), the fitness score
lies in [0,1]; and replacing any single entry by one with
greater-or-equal satisfaction, efficiency and success never decreases the
fitness score. -/
theorem fitness_bounds_and_monotone :
    (∀ (h : List EvolutionData) (f : ℚ),
      (∀ e ∈ h, 0 ≤ e.user_satisfaction ∧ e.user_satisfaction ≤ 1 ∧
        0 ≤ e.resource_efficiency ∧ e.resource_efficiency ≤ 1) →
      calculate_fitness_score h = some f → 0 ≤ f ∧ f ≤ 1) ∧
    (∀ (h : List EvolutionData) (i : Nat) (hi : i < h.length) (e' : EvolutionData)
      (f f' : ℚ),
      dataLE (h.get ⟨i, hi⟩) e' →
      calculate_fitness_score h = some f →
      calculate_fitness_score (h.set i e') = some f' →
      f ≤ f') := by
  constructor
  · intro h f hb hcalc
    have hne : h ≠ [] := by
      rintro rfl
      simp [calculate_fitness_score] at hcalc
    rw [calculate_fitness_score_of_ne_nil hne] at hcalc
    obtain rfl : fitness_val h = f := Option.some.inj hcalc
    exact fitness_val_bounds hne hb
  · intro h i hi e' f f' hle hcalc hcalc'
    have hne : h ≠ [] := by
      rintro rfl
      simp [calculate_fitness_score] at hcalc
    have hne' : h.set i e' ≠ [] := by
      intro hset
      have := congrArg List.length hset
      simp at this
      exact hne this
    rw [calculate_fitness_score_of_ne_nil hne] at hcalc
    rw [calculate_fitness_score_of_ne_nil hne'] at hcalc'
    obtain rfl : fitness_val h = f := Option.some.inj hcalc
    obtain rfl : fitness_val (h.set i e') = f' := Option.some.inj hcalc'
    apply fitness_val_mono
    apply List.forall₂_of_length_eq_of_get
    · simp
    · intro j h₁ h₂
      by_cases hij : i = j
      · subst hij
        have hg : (h.set i e').get ⟨i, h₂⟩ = e' := by
          simp [List.get_eq_getElem, List.getElem_set_self]
        rw [hg]
        exact hle
      · have hg : (h.set i e').get ⟨j, h₂⟩ = h.get ⟨j, h₁⟩ := by
          simp [List.get_eq_getElem, List.getElem_set_ne hij]
        rw [hg]
        exact dataLE_refl _

/-- Witness for C7 at concrete one-entry histories: bounds on a good
outcome, and monotonicity when the bad outcome is replaced by the good one. -/
theorem fitness_bounds_and_monotone_witness :
    (0 ≤ fitness_val [make_evolution_data outcome1 1] ∧
      fitness_val [make_evolution_data outcome1 1] ≤ 1) ∧
    fitness_val [make_evolution_data outcome_low 1] ≤
      fitness_val ([make_evolution_data outcome_low 1].set 0 (make_evolution_data outcome1 2)) := by
  constructor
  · exact fitness_bounds_and_monotone.1 [make_evolution_data outcome1 1] _
      (by
        intro e he
        simp only [List.mem_singleton] at he
        subst he
        norm_num [make_evolution_data, outcome1])
      (calculate_fitness_score_of_ne_nil (by simp))
  · exact fitness_bounds_and_monotone.2 [make_evolution_data outcome_low 1] 0 (by simp)
      (make_evolution_data outcome1 2) _ _
      (by norm_num [dataLE, make_evolution_data, outcome_low, outcome1, List.get])
      (calculate_fitness_score_of_ne_nil (by simp))
      (calculate_fitness_score_of_ne_nil (by simp))

end VelocityMesh
